import Mathlib

/-!
Shallow embedding of the data-access layer of the sales-inventory-dashboard
repository (src/database.py) and verification of its specification claims.

Modelling conventions:
* The SQLite store is a `DB` record holding the `products` and `transactions`
  tables as lists of rows, together with the AUTOINCREMENT counters.
* SQLite `REAL` columns (price, cost, total_price, profit) are modelled as `ℚ`
  (exact arithmetic; the seeded values and all claim-relevant computations are
  exact in IEEE doubles as well). `INTEGER` columns (stock, quantity) are `ℤ`
  since Python ints are unbounded and nothing clamps them. Timestamps are `ℤ`
  (minutes); `datetime.now()` becomes an explicit `now` parameter, and
  `timedelta(days = d)` becomes `d * 1440` minutes.
* Each Python function takes the `DB` (plus `now` where it calls
  `datetime.now()`) and returns the new `DB` together with its return value.
  `create_tables` only issues `CREATE TABLE IF NOT EXISTS` and is a no-op on
  the modelled state.
* `random` is modelled as a deterministic stream of naturals (`PyRand`);
  `random.randint lo hi` consumes one draw and maps it into `[lo, hi]`,
  `random.choice` consumes one draw and indexes the list.
-/

/-- A row of the `products` table (id, name, category, price, cost, stock,
created_at). -/
structure Product where
  id : Nat
  name : String
  category : String
  price : ℚ
  cost : ℚ
  stock : ℤ
  created_at : ℤ
  deriving Repr, DecidableEq

/-- A row of the `transactions` table. -/
structure Txn where
  id : Nat
  product_id : Nat
  quantity : ℤ
  total_price : ℚ
  profit : ℚ
  transaction_date : ℤ
  deriving Repr, DecidableEq

/-- The SQLite database state: both tables plus the AUTOINCREMENT counters. -/
structure DB where
  products : List Product
  transactions : List Txn
  nextProductId : Nat
  nextTxnId : Nat
  deriving Repr, DecidableEq

/-- A freshly created store: both tables empty, AUTOINCREMENT starts at 1. -/
def DB.empty : DB := ⟨[], [], 1, 1⟩

/-- Minutes in a day: `timedelta(days = 1)`. -/
def minutesPerDay : ℤ := 1440

/-- Model of `add_product`: INSERT INTO products, returning `cursor.lastrowid`.
`created_at` takes the column default `CURRENT_TIMESTAMP`. -/
def add_product (db : DB) (name category : String) (price cost : ℚ)
    (stock : ℤ) (now : ℤ) : DB × Nat :=
  let pid := db.nextProductId
  ({ db with
      products := db.products ++
        [⟨pid, name, category, price, cost, stock, now⟩],
      nextProductId := pid + 1 },
    pid)

/-- Model of `get_products`: `SELECT * FROM products ORDER BY id`. -/
def get_products (db : DB) : List Product :=
  db.products.insertionSort (fun a b => a.id ≤ b.id)

/-- Model of `get_product_by_id`: `SELECT * FROM products WHERE id = ?`, `fetchone`. -/
def get_product_by_id (db : DB) (product_id : Nat) : Option Product :=
  db.products.find? (fun p => p.id == product_id)

/-- The `UPDATE products SET stock = ? WHERE id = ?` statement. -/
def setStock (products : List Product) (product_id : Nat) (new_stock : ℤ) :
    List Product :=
  products.map (fun p => if p.id = product_id then { p with stock := new_stock } else p)

/-- Model of `update_stock(product_id, quantity_sold)`: reads the current stock, fails
when the product is absent or `current_stock < quantity_sold`, otherwise
writes `current_stock - quantity_sold`. -/
def update_stock (db : DB) (product_id : Nat) (quantity_sold : ℤ) : DB × Bool :=
  match db.products.find? (fun p => p.id == product_id) with
  | none => (db, false)
  | some result =>
    let current_stock := result.stock
    if current_stock < quantity_sold then (db, false)
    else
      let new_stock := current_stock - quantity_sold
      ({ db with products := setStock db.products product_id new_stock }, true)

/-- Model of `restock_product(product_id, quantity_to_add)`: fails only when the
product is absent; otherwise writes `current_stock + quantity_to_add`. -/
def restock_product (db : DB) (product_id : Nat) (quantity_to_add : ℤ) :
    DB × Bool :=
  match db.products.find? (fun p => p.id == product_id) with
  | none => (db, false)
  | some result =>
    let new_stock := result.stock + quantity_to_add
    ({ db with products := setStock db.products product_id new_stock }, true)

/-- Model of `update_product`: patch semantics — absent (`None`) fields keep the
current value; fails when the product does not exist. -/
def update_product (db : DB) (product_id : Nat) (name category : Option String)
    (price cost : Option ℚ) (stock : Option ℤ) : DB × Bool :=
  match get_product_by_id db product_id with
  | none => (db, false)
  | some product =>
    let new_name := name.getD product.name
    let new_category := category.getD product.category
    let new_price := price.getD product.price
    let new_cost := cost.getD product.cost
    let new_stock := stock.getD product.stock
    ({ db with products := db.products.map (fun p =>
        if p.id = product_id then
          { p with name := new_name, category := new_category,
                   price := new_price, cost := new_cost, stock := new_stock }
        else p) },
      true)

/-- Model of `delete_product`: fails when absent; otherwise first
`DELETE FROM transactions WHERE product_id = ?`, then
`DELETE FROM products WHERE id = ?`. -/
def delete_product (db : DB) (product_id : Nat) : DB × Bool :=
  match db.products.find? (fun p => p.id == product_id) with
  | none => (db, false)
  | some _ =>
    ({ db with
        transactions := db.transactions.filter (fun t => t.product_id ≠ product_id),
        products := db.products.filter (fun p => p.id ≠ product_id) },
      true)

/-- Model of `add_transaction`: INSERT INTO transactions, `transaction_date` takes the
column default `CURRENT_TIMESTAMP`; returns `cursor.lastrowid`. -/
def add_transaction (db : DB) (product_id : Nat) (quantity : ℤ)
    (total_price profit : ℚ) (now : ℤ) : DB × Nat :=
  let tid := db.nextTxnId
  ({ db with
      transactions := db.transactions ++
        [⟨tid, product_id, quantity, total_price, profit, now⟩],
      nextTxnId := tid + 1 },
    tid)

/-- Model of `add_transaction_with_date`: like `add_transaction` but with an explicit
`transaction_date`; no return value. -/
def add_transaction_with_date (db : DB) (product_id : Nat) (quantity : ℤ)
    (total_price profit : ℚ) (transaction_date : ℤ) : DB :=
  { db with
      transactions := db.transactions ++
        [⟨db.nextTxnId, product_id, quantity, total_price, profit,
          transaction_date⟩],
      nextTxnId := db.nextTxnId + 1 }

/-- A row of the `get_transactions` result set (transactions JOIN products). -/
structure TxnRow where
  id : Nat
  product_id : Nat
  product_name : String
  quantity : ℤ
  total_price : ℚ
  profit : ℚ
  transaction_date : ℤ
  deriving Repr, DecidableEq

/-- Model of `get_transactions(days)`: inner-join of `transactions` with `products` on
`t.product_id = p.id`, filtered to `t.transaction_date >= now - days`,
ordered by `transaction_date` descending. -/
def get_transactions (db : DB) (days : ℤ) (now : ℤ) : List TxnRow :=
  let start_date := now - days * minutesPerDay
  let joined := db.transactions.flatMap (fun t =>
    (db.products.filter (fun p => p.id = t.product_id)).map (fun p =>
      (⟨t.id, t.product_id, p.name, t.quantity, t.total_price, t.profit,
        t.transaction_date⟩ : TxnRow)))
  (joined.filter (fun r => start_date ≤ r.transaction_date)).insertionSort
    (fun a b => b.transaction_date ≤ a.transaction_date)

/-- Model of `is_database_empty`: `SELECT COUNT(*) FROM products` equals zero. -/
def is_database_empty (db : DB) : Bool :=
  db.products.length == 0

/-- The `stock_status` string assigned when restocking is flagged
(source: the literal in `get_sales_prediction`). -/
def statusRestock : String := "⚠️ Perlu Restock"

/-- The `stock_status` string assigned when the stock level is fine. -/
def statusOK : String := "✅ Aman"

/-- Round-half-to-even on `ℚ`, the rounding performed by pandas
`.round(0)` (IEEE/numpy banker's rounding), modelled exactly. -/
def roundHalfEven (q : ℚ) : ℤ :=
  let f : ℤ := ⌊q⌋
  let frac := q - (f : ℚ)
  if frac < 1 / 2 then f
  else if (1 : ℚ) / 2 < frac then f + 1
  else if f % 2 = 0 then f else f + 1

/-- A row of the `get_sales_prediction` result DataFrame. -/
structure PredRow where
  product_id : Nat
  product_name : String
  current_stock : ℤ
  total_sold_3days : ℤ
  avg_daily_sales : ℚ
  predicted_demand : ℤ
  stock_status : String
  deriving Repr, DecidableEq

/-- The aggregation row of `get_sales_prediction` for one product: the
LEFT JOIN with date-restricted transactions, grouped by the product, with
`COALESCE(SUM(t.quantity), 0)`, `COALESCE(AVG(t.quantity), 0)`, then the
pandas columns `predicted_demand = (avg * 1.2).round(0).astype(int)` and
`stock_status` from `current_stock < predicted_demand * 2`. -/
def predRowFor (db : DB) (start_date : ℤ) (p : Product) : PredRow :=
  let matching := db.transactions.filter (fun t =>
    t.product_id = p.id ∧ start_date ≤ t.transaction_date)
  let total_sold : ℤ := (matching.map (fun t => t.quantity)).sum
  let avg : ℚ :=
    if matching.length = 0 then 0 else (total_sold : ℚ) / (matching.length : ℚ)
  let predicted := roundHalfEven (avg * (12 / 10))
  { product_id := p.id
    product_name := p.name
    current_stock := p.stock
    total_sold_3days := total_sold
    avg_daily_sales := avg
    predicted_demand := predicted
    stock_status := if p.stock < predicted * 2 then statusRestock else statusOK }

/-- Model of `get_sales_prediction`: per-product aggregation over the trailing 3-day
window, ordered by `avg_daily_sales` descending. -/
def get_sales_prediction (db : DB) (now : ℤ) : List PredRow :=
  let start_date := now - 3 * minutesPerDay
  (db.products.map (predRowFor db start_date)).insertionSort
    (fun a b => b.avg_daily_sales ≤ a.avg_daily_sales)

/-- The deterministic stream standing in for Python's `random` module:
`stream` supplies the raw draws, `idx` is the position of the next draw. -/
structure PyRand where
  stream : Nat → Nat
  idx : Nat

/-- Consume one raw draw. -/
def PyRand.next (r : PyRand) : Nat × PyRand :=
  (r.stream r.idx, { r with idx := r.idx + 1 })

/-- Model of `random.randint(lo, hi)`: uniform over `[lo, hi]` inclusive (here: the
next raw draw folded into the interval). -/
def randint (lo hi : Nat) (r : PyRand) : Nat × PyRand :=
  let (n, r') := r.next
  (lo + n % (hi - lo + 1), r')

/-- Model of `random.choice(l)` on a list of product ids. -/
def randChoice (l : List Nat) (r : PyRand) : Nat × PyRand :=
  let (n, r') := r.next
  (l.getD (n % l.length) 0, r')

/-- The fixed demo catalog `products_data` of `generate_dummy_data`:
(name, category, price, cost, stock). -/
def products_data : List (String × String × ℚ × ℚ × ℤ) :=
  [("Laptop Asus ROG", "Elektronik", 15000000, 13000000, 15),
   ("iPhone 15 Pro", "Elektronik", 20000000, 17500000, 10),
   ("Mouse Logitech G502", "Aksesoris", 850000, 650000, 50),
   ("Keyboard Mechanical RGB", "Aksesoris", 750000, 500000, 40),
   ("Monitor Samsung 27 inch", "Elektronik", 3500000, 2800000, 20),
   ("Headphone Sony WH-1000XM5", "Aksesoris", 4500000, 3500000, 25),
   ("SSD Samsung 1TB", "Komponen", 1500000, 1100000, 35),
   ("RAM DDR5 32GB", "Komponen", 2000000, 1500000, 30),
   ("Webcam Logitech C920", "Aksesoris", 1200000, 900000, 45),
   ("Printer Epson L3250", "Elektronik", 3200000, 2600000, 15)]

/-- One iteration of the inner transaction loop of `generate_dummy_data`:
pick a random product; when it exists and has positive stock, draw a
quantity in `[1, min 3 stock]`, record the backdated transaction, decrement
the stock via `update_stock`, and bump `transaction_count`. -/
def seedAttempt (now : ℤ) (day_offset : Nat) (pids : List Nat)
    (st : DB × PyRand × Nat) : DB × PyRand × Nat :=
  let db := st.1
  let count := st.2.2
  let choicePair := randChoice pids st.2.1
  let product_id := choicePair.1
  let r1 := choicePair.2
  match get_product_by_id db product_id with
  | none => (db, r1, count)
  | some product =>
    if 0 < product.stock then
      let qPair := randint 1 (min 3 product.stock).toNat r1
      let quantity : ℤ := qPair.1
      let total_price : ℚ := product.price * (quantity : ℚ)
      let profit : ℚ := (product.price - product.cost) * (quantity : ℚ)
      let hPair := randint 8 20 qPair.2
      let mPair := randint 0 59 hPair.2
      let transaction_date : ℤ :=
        now - ((day_offset : ℤ) * minutesPerDay + (hPair.1 : ℤ) * 60
          + (mPair.1 : ℤ))
      let db1 := add_transaction_with_date db product_id quantity total_price
        profit transaction_date
      let db2 := (update_stock db1 product_id quantity).1
      (db2, mPair.2, count + 1)
    else (db, r1, count)

/-- The inner per-day loop: run the drawn number of transaction attempts
for one `day_offset`, stopping as soon as `transaction_count` reaches 50
(the source breaks right after the 50th increment; nothing happens between
that break and the next iteration, so the cut-off is checked at the top
of each iteration). -/
def seedDayLoop (now : ℤ) (day_offset : Nat) (pids : List Nat) :
    Nat → DB × PyRand × Nat → DB × PyRand × Nat
  | 0, st => st
  | iters + 1, st =>
    if 50 ≤ st.2.2 then st
    else seedDayLoop now day_offset pids iters (seedAttempt now day_offset pids st)

/-- The outer day loop of `generate_dummy_data`: for each `day_offset` from
7 down to 0, draw `daily_transactions = randint(5, 10)` and run the inner
loop; stop once 50 transactions were recorded. -/
def seedDays (now : ℤ) (pids : List Nat) :
    List Nat → DB × PyRand × Nat → DB × PyRand × Nat
  | [], st => st
  | d :: ds, st =>
    if 50 ≤ st.2.2 then st
    else
      let dailyPair := randint 5 10 st.2.1
      seedDays now pids ds
        (seedDayLoop now d pids dailyPair.1 (st.1, dailyPair.2, st.2.2))

/-- Model of `generate_dummy_data`: insert the fixed catalog via `add_product`,
collect the new ids, then generate the randomized backdated transactions
over the day offsets `7, 6, …, 0`. -/
def generate_dummy_data (db : DB) (r : PyRand) (now : ℤ) : DB × PyRand :=
  let inserted := products_data.foldl
    (fun (acc : DB × List Nat) pd =>
      let added := add_product acc.1 pd.1 pd.2.1 pd.2.2.1 pd.2.2.2.1
        pd.2.2.2.2 now
      (added.1, acc.2 ++ [added.2]))
    (db, [])
  let final := seedDays now inserted.2 [7, 6, 5, 4, 3, 2, 1, 0]
    (inserted.1, r, 0)
  (final.1, final.2.1)

/-- Model of `initialize_database`: `create_tables()` (a no-op on the modelled
state), then seed dummy data and return `True` iff the products table is
empty, else return `False`. -/
def initialize_database (db : DB) (r : PyRand) (now : ℤ) : DB × PyRand × Bool :=
  if is_database_empty db then
    let seeded := generate_dummy_data db r now
    (seeded.1, seeded.2, true)
  else (db, r, false)

/-! ## Helper lemmas -/

/-- Looking a product up after `setStock` returns the looked-up product with
its stock overwritten. -/
theorem find?_setStock (l : List Product) (pid : Nat) (s : ℤ) :
    (setStock l pid s).find? (fun p => p.id == pid)
      = (l.find? (fun p => p.id == pid)).map (fun p => { p with stock := s }) := by
  induction l with
  | nil => rfl
  | cons h t ih =>
    by_cases hc : h.id = pid
    · simp [setStock, List.find?_cons, hc]
    · simpa [setStock, List.find?_cons, hc] using ih

/-- Lemma: `setStock` never touches ids, names, categories, prices or costs. -/
theorem setStock_map_id_name (l : List Product) (pid : Nat) (s : ℤ) :
    (setStock l pid s).map (fun p => (p.id, p.name))
      = l.map (fun p => (p.id, p.name)) := by
  induction l with
  | nil => rfl
  | cons h t ih =>
    by_cases hc : h.id = pid <;> simp [setStock, hc] <;>
      simpa [setStock] using ih

/-- Lemma: `setStock` preserves the length of the products table. -/
theorem setStock_length (l : List Product) (pid : Nat) (s : ℤ) :
    (setStock l pid s).length = l.length := by
  simp [setStock]

/-! ## C1: update_stock (decrementStockForSale) -/

/-- C1: for every existing product with current stock `s`, `update_stock`
with quantity `q` succeeds exactly when `q ≤ s`; on success the product's
stock afterwards is `s - q` and the transactions table is untouched; on
failure (product absent or `q > s`) nothing is mutated. -/
theorem update_stock_spec (db : DB) (pid : Nat) (q : ℤ) :
    (∀ p, get_product_by_id db pid = some p →
      ((update_stock db pid q).2 = true ↔ q ≤ p.stock)
      ∧ (q ≤ p.stock →
          get_product_by_id (update_stock db pid q).1 pid
              = some { p with stock := p.stock - q }
            ∧ (update_stock db pid q).1.transactions = db.transactions)
      ∧ (p.stock < q → update_stock db pid q = (db, false)))
    ∧ (get_product_by_id db pid = none → update_stock db pid q = (db, false)) := by
  constructor
  · intro p hp
    rw [get_product_by_id] at hp
    refine ⟨?_, ?_, ?_⟩
    · rw [update_stock, hp]
      by_cases hlt : p.stock < q
      · simp [hlt]
      · simp [hlt]
        omega
    · intro hle
      rw [update_stock, hp]
      have hlt : ¬ p.stock < q := not_lt.mpr hle
      simp only [hlt, if_false]
      constructor
      · rw [get_product_by_id]
        simp [find?_setStock, hp]
      · trivial
    · intro hlt
      rw [update_stock, hp]
      simp [hlt]
  · intro hp
    rw [get_product_by_id] at hp
    rw [update_stock, hp]

/-- Concrete product and store used to witness the theorems about a single
existing product. -/
def wprod : Product := ⟨1, "Laptop", "Elektronik", 100, 80, 5, 0⟩

/-- A one-product store with stock 5. -/
def wdb : DB := ⟨[wprod], [], 2, 1⟩

/-- C1 witness: in the concrete store, selling 2 of the 5 units succeeds. -/
theorem update_stock_spec_witness :
    get_product_by_id wdb 1 = some wprod
      ∧ ((update_stock wdb 1 2).2 = true ↔ (2 : ℤ) ≤ wprod.stock) :=
  ⟨by decide, ((update_stock_spec wdb 1 2).1 wprod (by decide)).1⟩

/-! ## C9: restock_product -/

/-- Unfolding `restock_product` on an existing product: it always succeeds
and writes `stock + quantity_to_add`. -/
theorem restock_product_eq (db : DB) (pid : Nat) (q : ℤ) (p : Product)
    (hp : db.products.find? (fun x => x.id == pid) = some p) :
    restock_product db pid q
      = ({ db with products := setStock db.products pid (p.stock + q) }, true) := by
  rw [restock_product, hp]

/-- Unfolding `update_stock` on an existing product with `q ≤ stock`: it
succeeds and writes `stock - q`. -/
theorem update_stock_eq_of_le (db : DB) (pid : Nat) (q : ℤ) (p : Product)
    (hp : db.products.find? (fun x => x.id == pid) = some p) (hle : q ≤ p.stock) :
    update_stock db pid q
      = ({ db with products := setStock db.products pid (p.stock - q) }, true) := by
  rw [update_stock, hp]
  simp [not_lt.mpr hle]

/-- C9: for every existing product with stock `s` and every integer `q`
(negative included), `restock_product` returns `True` and sets the stock to
`s + q`; nothing stops `s + q` from being negative, so `q < -s` drives the
stock below zero. -/
theorem restock_product_spec (db : DB) (pid : Nat) (q : ℤ) (p : Product)
    (hp : get_product_by_id db pid = some p) :
    (restock_product db pid q).2 = true
    ∧ get_product_by_id (restock_product db pid q).1 pid
        = some { p with stock := p.stock + q }
    ∧ (q < -p.stock →
        ∃ p', get_product_by_id (restock_product db pid q).1 pid = some p'
          ∧ p'.stock < 0) := by
  rw [get_product_by_id] at hp
  rw [restock_product_eq db pid q p hp]
  refine ⟨rfl, ?_, ?_⟩
  · rw [get_product_by_id]
    simp [find?_setStock, hp]
  · intro hneg
    refine ⟨{ p with stock := p.stock + q }, ?_, ?_⟩
    · rw [get_product_by_id]
      simp [find?_setStock, hp]
    · show p.stock + q < 0
      omega

/-- C9 witness: restocking the 5-stock product by −7 succeeds and yields
stock −2. -/
theorem restock_product_spec_witness :
    get_product_by_id wdb 1 = some wprod
      ∧ ((restock_product wdb 1 (-7)).2 = true
        ∧ get_product_by_id (restock_product wdb 1 (-7)).1 1
            = some { wprod with stock := wprod.stock + (-7) }
        ∧ ((-7 : ℤ) < -wprod.stock →
            ∃ p', get_product_by_id (restock_product wdb 1 (-7)).1 1 = some p'
              ∧ p'.stock < 0)) :=
  ⟨by decide, restock_product_spec wdb 1 (-7) wprod (by decide)⟩

/-! ## C4: negative quantities are not rejected -/

/-- C4 counterexample: in the concrete 5-stock store, `update_stock` with
quantity −3 succeeds and raises the stock to 8, and `restock_product` with
quantity −7 succeeds and drives the stock to −2 — neither public mutator
rejects a negative quantity, contrary to the claim. -/
theorem negative_quantity_cex :
    (update_stock wdb 1 (-3)).2 = true
    ∧ get_product_by_id (update_stock wdb 1 (-3)).1 1
        = some { wprod with stock := 8 }
    ∧ (restock_product wdb 1 (-7)).2 = true
    ∧ get_product_by_id (restock_product wdb 1 (-7)).1 1
        = some { wprod with stock := -2 } := by
  decide

/-- C4 amended: neither `update_stock` nor `restock_product` validates the
sign of its quantity. For an existing product with stock `s`: `update_stock`
with negative `q` succeeds whenever `q ≤ s` and sets the stock to `s − q`,
strictly above `s`; `restock_product` with negative `q` always succeeds and
sets the stock to `s + q`, strictly below `s` (below zero when `q < −s`). -/
theorem negative_quantity_amended (db : DB) (pid : Nat) (q : ℤ) (p : Product)
    (hp : get_product_by_id db pid = some p) (hq : q < 0) :
    (q ≤ p.stock →
      (update_stock db pid q).2 = true
      ∧ get_product_by_id (update_stock db pid q).1 pid
          = some { p with stock := p.stock - q }
      ∧ p.stock < p.stock - q)
    ∧ ((restock_product db pid q).2 = true
      ∧ get_product_by_id (restock_product db pid q).1 pid
          = some { p with stock := p.stock + q }
      ∧ p.stock + q < p.stock) := by
  rw [get_product_by_id] at hp
  constructor
  · intro hle
    rw [update_stock_eq_of_le db pid q p hp hle]
    refine ⟨rfl, ?_, by omega⟩
    rw [get_product_by_id]
    simp [find?_setStock, hp]
  · rw [restock_product_eq db pid q p hp]
    refine ⟨rfl, ?_, by omega⟩
    rw [get_product_by_id]
    simp [find?_setStock, hp]

/-- C4 amended witness: concrete run of both mutators at quantity −3 and −7
on the 5-stock product. -/
theorem negative_quantity_amended_witness :
    (-3 : ℤ) ≤ wprod.stock
      ∧ ((update_stock wdb 1 (-3)).2 = true
        ∧ get_product_by_id (update_stock wdb 1 (-3)).1 1
            = some { wprod with stock := wprod.stock - (-3) }
        ∧ wprod.stock < wprod.stock - (-3)) :=
  ⟨by decide,
    (negative_quantity_amended wdb 1 (-3) wprod (by decide) (by decide)).1
      (by decide)⟩

/-! ## C2: delete_product cascades -/

/-- Soundness of the `get_transactions` join: every result row is built from
a stored transaction and a product row with the matching id, and lies inside
the window. -/
theorem mem_get_transactions_elim (db : DB) (days now : ℤ) (r : TxnRow)
    (hr : r ∈ get_transactions db days now) :
    ∃ t ∈ db.transactions, ∃ p ∈ db.products,
      p.id = t.product_id ∧ r.product_id = t.product_id ∧ r.id = t.id
      ∧ r.quantity = t.quantity ∧ r.total_price = t.total_price
      ∧ r.profit = t.profit ∧ r.transaction_date = t.transaction_date
      ∧ r.product_name = p.name
      ∧ now - days * minutesPerDay ≤ r.transaction_date := by
  rw [get_transactions] at hr
  simp only [List.mem_insertionSort, List.mem_filter, List.mem_flatMap,
    List.mem_map, decide_eq_true_eq] at hr
  obtain ⟨⟨t, ht, p, hp, hrq⟩, hdate⟩ := hr
  subst hrq
  exact ⟨t, ht, p, hp.1, hp.2, rfl, rfl, rfl, rfl, rfl, rfl, rfl, hdate⟩

/-- Completeness of the `get_transactions` join: every stored transaction
inside the window whose product exists produces its row. -/
theorem mem_get_transactions_intro (db : DB) (days now : ℤ) (t : Txn)
    (p : Product) (ht : t ∈ db.transactions) (hp : p ∈ db.products)
    (hid : p.id = t.product_id)
    (hdate : now - days * minutesPerDay ≤ t.transaction_date) :
    (⟨t.id, t.product_id, p.name, t.quantity, t.total_price, t.profit,
      t.transaction_date⟩ : TxnRow) ∈ get_transactions db days now := by
  rw [get_transactions]
  simp only [List.mem_insertionSort, List.mem_filter, List.mem_flatMap,
    List.mem_map, decide_eq_true_eq]
  exact ⟨⟨t, ht, p, ⟨hp, hid⟩, rfl⟩, hdate⟩

/-- C2: deleting an existing product succeeds, removes the product row and
every transaction row with that `product_id`, and afterwards no
`get_transactions` window ever returns a row for that id; deleting an
absent id fails without mutation. -/
theorem delete_product_spec (db : DB) (pid : Nat) :
    ((∃ p ∈ db.products, p.id = pid) →
      (delete_product db pid).2 = true
      ∧ get_product_by_id (delete_product db pid).1 pid = none
      ∧ (∀ t ∈ (delete_product db pid).1.transactions, t.product_id ≠ pid)
      ∧ ∀ days now r, r ∈ get_transactions (delete_product db pid).1 days now →
          r.product_id ≠ pid)
    ∧ (get_product_by_id db pid = none → delete_product db pid = (db, false)) := by
  constructor
  · intro hex
    have hsome : (db.products.find? (fun p => p.id == pid)).isSome := by
      rw [List.find?_isSome]
      obtain ⟨p, hp, hid⟩ := hex
      exact ⟨p, hp, by simpa using hid⟩
    obtain ⟨q, hq⟩ := Option.isSome_iff_exists.mp hsome
    rw [delete_product, hq]
    refine ⟨rfl, ?_, ?_, ?_⟩
    · rw [get_product_by_id, List.find?_eq_none]
      intro x hx
      rw [List.mem_filter] at hx
      simpa using hx.2
    · intro t ht
      rw [List.mem_filter] at ht
      simpa using ht.2
    · intro days now r hr
      obtain ⟨t, ht, p, hp, hpid, hrpid, _⟩ :=
        mem_get_transactions_elim _ days now r hr
      rw [List.mem_filter] at ht
      have hne : t.product_id ≠ pid := by simpa using ht.2
      rw [hrpid]
      exact hne
  · intro hp
    rw [get_product_by_id] at hp
    rw [delete_product, hp]

/-- A transaction for product 1 in the concrete store. -/
def wtxn : Txn := ⟨1, 1, 2, 200, 40, 0⟩

/-- A one-product store with one recorded transaction. -/
def wdb2 : DB := ⟨[wprod], [wtxn], 2, 2⟩

/-- C2 witness: deleting product 1 from the concrete store succeeds and
removes both the product and its transaction. -/
theorem delete_product_spec_witness :
    (∃ p ∈ wdb2.products, p.id = 1)
      ∧ (delete_product wdb2 1).2 = true
      ∧ get_product_by_id (delete_product wdb2 1).1 1 = none :=
  ⟨⟨wprod, by decide, by decide⟩,
    ((delete_product_spec wdb2 1).1 ⟨wprod, by decide, by decide⟩).1,
    ((delete_product_spec wdb2 1).1 ⟨wprod, by decide, by decide⟩).2.1⟩

/-! ## C3: total_price / profit are immutable snapshots -/

/-- Lemma: `update_product` never touches the transactions table. -/
theorem update_product_transactions (db : DB) (pid : Nat) (n c : Option String)
    (pr co : Option ℚ) (st : Option ℤ) :
    (update_product db pid n c pr co st).1.transactions = db.transactions := by
  rw [update_product]
  cases h : get_product_by_id db pid <;> rfl

/-- Lemma: `update_product` keeps a row (with the same id) for every product. -/
theorem update_product_products_id (db : DB) (pid : Nat) (n c : Option String)
    (pr co : Option ℚ) (st : Option ℤ) (p : Product) (hp : p ∈ db.products) :
    ∃ p' ∈ (update_product db pid n c pr co st).1.products, p'.id = p.id := by
  rw [update_product]
  cases h : get_product_by_id db pid with
  | none => exact ⟨p, hp, rfl⟩
  | some q =>
    refine ⟨_, List.mem_map_of_mem _ hp, ?_⟩
    by_cases hc : p.id = pid <;> simp [hc]

/-- C3: after any `update_product` call (price/cost edits included), the
stored transactions are unchanged, every `get_transactions` row still
carries a stored transaction's original `total_price` and `profit`, and
every in-window transaction of an existing product still produces a row
reporting its original `total_price` and `profit`. -/
theorem snapshot_immutable (db : DB) (pid : Nat) (n c : Option String)
    (pr co : Option ℚ) (st : Option ℤ) :
    (update_product db pid n c pr co st).1.transactions = db.transactions
    ∧ (∀ days now r,
        r ∈ get_transactions (update_product db pid n c pr co st).1 days now →
        ∃ t ∈ db.transactions, r.id = t.id ∧ r.total_price = t.total_price
          ∧ r.profit = t.profit)
    ∧ (∀ days now t p, t ∈ db.transactions → p ∈ db.products →
        p.id = t.product_id → now - days * minutesPerDay ≤ t.transaction_date →
        ∃ r ∈ get_transactions (update_product db pid n c pr co st).1 days now,
          r.id = t.id ∧ r.total_price = t.total_price ∧ r.profit = t.profit) := by
  refine ⟨update_product_transactions db pid n c pr co st, ?_, ?_⟩
  · intro days now r hr
    obtain ⟨t, ht, p', hp', hpid, hrpid, hrid, hrq, hrtp, hrpf, _⟩ :=
      mem_get_transactions_elim _ days now r hr
    rw [update_product_transactions db pid n c pr co st] at ht
    exact ⟨t, ht, hrid, hrtp, hrpf⟩
  · intro days now t p ht hp hid hdate
    obtain ⟨p', hp', hid'⟩ := update_product_products_id db pid n c pr co st p hp
    have ht' : t ∈ (update_product db pid n c pr co st).1.transactions := by
      rw [update_product_transactions db pid n c pr co st]
      exact ht
    refine ⟨_, mem_get_transactions_intro _ days now t p' ht' hp'
      (by rw [hid']; exact hid) hdate, rfl, rfl, rfl⟩

/-- The spec round-trip transaction: stored with `total_price = 1000`,
`profit = 200`. -/
def wtxn3 : Txn := ⟨1, 1, 1, 1000, 200, 0⟩

/-- Store for the C3 round-trip scenario. -/
def wdb3 : DB := ⟨[wprod], [wtxn3], 2, 2⟩

/-- C3 witness: after editing product 1's price and cost, the 7-day window
still reports the transaction with `total_price = 1000`, `profit = 200`. -/
theorem snapshot_immutable_witness :
    wtxn3 ∈ wdb3.transactions ∧ wprod ∈ wdb3.products
      ∧ ∃ r ∈ get_transactions
            (update_product wdb3 1 none none (some 999) (some 500) none).1 7 0,
          r.id = wtxn3.id ∧ r.total_price = wtxn3.total_price
            ∧ r.profit = wtxn3.profit :=
  ⟨by decide, by decide,
    (snapshot_immutable wdb3 1 none none (some 999) (some 500) none).2.2 7 0
      wtxn3 wprod (by decide) (by decide) (by decide) (by decide)⟩

/-! ## C10: add_transaction does not check product existence -/

/-- C10: `add_transaction` succeeds for a `product_id` with no matching
product row, returning the fresh transaction id (distinct from all stored
ids), the orphan row is stored, and no `get_transactions` window ever shows
a row with that `product_id` because the query inner-joins with products. -/
theorem add_transaction_orphan (db : DB) (pid : Nat) (qty : ℤ) (tp pf : ℚ)
    (now : ℤ) (horphan : ∀ p ∈ db.products, p.id ≠ pid)
    (hfresh : ∀ t ∈ db.transactions, t.id < db.nextTxnId) :
    (add_transaction db pid qty tp pf now).2 = db.nextTxnId
    ∧ (∀ t ∈ db.transactions, t.id ≠ (add_transaction db pid qty tp pf now).2)
    ∧ (∃ t ∈ (add_transaction db pid qty tp pf now).1.transactions,
        t.id = db.nextTxnId ∧ t.product_id = pid)
    ∧ ∀ days now' r,
        r ∈ get_transactions (add_transaction db pid qty tp pf now).1 days now' →
        r.product_id ≠ pid := by
  refine ⟨rfl, ?_, ?_, ?_⟩
  · intro t ht
    have := hfresh t ht
    show t.id ≠ db.nextTxnId
    omega
  · refine ⟨⟨db.nextTxnId, pid, qty, tp, pf, now⟩, ?_, rfl, rfl⟩
    show _ ∈ db.transactions ++ [_]
    simp
  · intro days now' r hr
    obtain ⟨t, ht, p, hp, hpid, hrpid, _⟩ :=
      mem_get_transactions_elim _ days now' r hr
    have hps : (add_transaction db pid qty tp pf now).1.products
        = db.products := rfl
    rw [hps] at hp
    have hne := horphan p hp
    intro heq
    exact hne (by omega)

/-- C10 witness: inserting a transaction for the absent product id 99 in the
concrete store returns the fresh id. -/
theorem add_transaction_orphan_witness :
    (∀ p ∈ wdb.products, p.id ≠ 99)
      ∧ (add_transaction wdb 99 1 10 2 0).2 = wdb.nextTxnId :=
  ⟨by decide, (add_transaction_orphan wdb 99 1 10 2 0 (by decide) (by decide)).1⟩

/-! ## C6: predicted_demand and stock_status -/

/-- Lemma: `roundHalfEven` rounds to a nearest integer: it never strays more than
half a unit from its argument. -/
theorem roundHalfEven_near (q : ℚ) : |(roundHalfEven q : ℚ) - q| ≤ 1 / 2 := by
  rw [roundHalfEven]
  have h1 : (⌊q⌋ : ℚ) ≤ q := Int.floor_le q
  have h2 : q < ⌊q⌋ + 1 := Int.lt_floor_add_one q
  by_cases hl : q - (⌊q⌋ : ℚ) < 1 / 2
  · rw [if_pos hl, abs_le]
    constructor <;> linarith
  · rw [if_neg hl]
    by_cases hg : (1 : ℚ) / 2 < q - (⌊q⌋ : ℚ)
    · rw [if_pos hg, abs_le]
      push_cast
      constructor <;> linarith
    · have heq : q - (⌊q⌋ : ℚ) = 1 / 2 := by linarith
      rw [if_neg hg]
      by_cases he : ⌊q⌋ % 2 = 0
      · rw [if_pos he, abs_le]
        constructor <;> linarith
      · rw [if_neg he, abs_le]
        push_cast
        constructor <;> linarith

/-- The two status strings differ. -/
theorem statusRestock_ne_statusOK : statusRestock ≠ statusOK := by decide

/-- Membership in the prediction result set: exactly the per-product
aggregation rows. -/
theorem mem_get_sales_prediction (db : DB) (now : ℤ) (r : PredRow) :
    r ∈ get_sales_prediction db now ↔
      ∃ p ∈ db.products, predRowFor db (now - 3 * minutesPerDay) p = r := by
  rw [get_sales_prediction]
  simp only [List.mem_insertionSort, List.mem_map]

/-- Status-string case split for the prediction rows. -/
theorem status_iff (s d : ℤ) :
    ((if s < d * 2 then statusRestock else statusOK) = statusRestock ↔ s < d * 2)
    ∧ ((if s < d * 2 then statusRestock else statusOK) = statusOK
        ↔ ¬ s < d * 2) := by
  by_cases hc : s < d * 2 <;>
    simp [hc, statusRestock_ne_statusOK, Ne.symm statusRestock_ne_statusOK]

/-- C6: every row of `get_sales_prediction` has
`predicted_demand = roundHalfEven(avg_daily_sales * 1.2)` (a nearest-integer
rounding with the half-to-even tie rule), and its status is "Perlu Restock"
exactly when `current_stock < predicted_demand * 2`, "Aman" otherwise. -/
theorem sales_prediction_fields (db : DB) (now : ℤ) (r : PredRow)
    (hr : r ∈ get_sales_prediction db now) :
    r.predicted_demand = roundHalfEven (r.avg_daily_sales * (12 / 10))
    ∧ |(r.predicted_demand : ℚ) - r.avg_daily_sales * (12 / 10)| ≤ 1 / 2
    ∧ (r.stock_status = statusRestock ↔ r.current_stock < r.predicted_demand * 2)
    ∧ (r.stock_status = statusOK ↔ ¬ r.current_stock < r.predicted_demand * 2) := by
  rw [mem_get_sales_prediction] at hr
  obtain ⟨p, hp, hpr⟩ := hr
  subst hpr
  exact ⟨rfl, roundHalfEven_near _, (status_iff _ _).1, (status_iff _ _).2⟩


/-- Lemma: `roundHalfEven` fixes zero. -/
theorem roundHalfEven_zero : roundHalfEven 0 = 0 := by
  norm_num [roundHalfEven]

/-- Prediction row of the concrete one-product store, used as the C6
witness row. -/
def wpred : PredRow := predRowFor wdb (0 - 3 * minutesPerDay) wprod

/-- C6 witness: the concrete store's single prediction row satisfies the
rounding relation. -/
theorem sales_prediction_fields_witness :
    wpred ∈ get_sales_prediction wdb 0
      ∧ wpred.predicted_demand
          = roundHalfEven (wpred.avg_daily_sales * (12 / 10)) :=
  ⟨(mem_get_sales_prediction wdb 0 wpred).mpr ⟨wprod, by decide, rfl⟩,
    (sales_prediction_fields wdb 0 wpred
      ((mem_get_sales_prediction wdb 0 wpred).mpr ⟨wprod, by decide, rfl⟩)).1⟩

/-! ## C5: products without sales in the 3-day window -/

/-- A product with negative stock (reachable through `restock_product` with
a negative quantity) and no transactions at all. -/
def wprodNeg : Product := ⟨1, "X", "C", 10, 5, -1, 0⟩

/-- Store holding only the negative-stock product. -/
def wdbNeg : DB := ⟨[wprodNeg], [], 2, 1⟩

/-- C5 counterexample: a product with no transactions ever is reported with
`avg_daily_sales = 0` and `predicted_demand = 0`, but when its current
stock is negative the status is "Perlu Restock", not "Aman" — the claim's
"regardless of the value of currentStock" fails. -/
theorem no_sales_status_cex :
    (get_sales_prediction wdbNeg 0).map
        (fun r => (r.avg_daily_sales, r.predicted_demand, r.stock_status))
      = [(0, 0, statusRestock)] := by
  simp [get_sales_prediction, predRowFor, wdbNeg, wprodNeg, roundHalfEven_zero]

/-- C5 amended: every product with no transaction in the trailing 3-day
window gets a row with `avg_daily_sales = 0` and `predicted_demand = 0`,
and its status is "Aman" exactly when `current_stock ≥ 0` (for a negative
current stock the row reads "Perlu Restock" instead). -/
theorem no_sales_prediction_amended (db : DB) (now : ℤ) (p : Product)
    (hp : p ∈ db.products)
    (hno : ∀ t ∈ db.transactions, t.product_id = p.id →
      t.transaction_date < now - 3 * minutesPerDay) :
    ∃ r ∈ get_sales_prediction db now, r.product_id = p.id
      ∧ r.current_stock = p.stock ∧ r.total_sold_3days = 0
      ∧ r.avg_daily_sales = 0 ∧ r.predicted_demand = 0
      ∧ (r.stock_status = statusOK ↔ 0 ≤ p.stock)
      ∧ (r.stock_status = statusRestock ↔ p.stock < 0) := by
  refine ⟨predRowFor db (now - 3 * minutesPerDay) p, ?_, ?_⟩
  · rw [mem_get_sales_prediction]
    exact ⟨p, hp, rfl⟩
  · have hfilter : db.transactions.filter (fun t =>
        t.product_id = p.id
          ∧ now - 3 * minutesPerDay ≤ t.transaction_date) = [] := by
      rw [List.filter_eq_nil_iff]
      intro t ht
      simp only [decide_eq_true_eq, not_and, not_le]
      intro hpid
      exact hno t ht hpid
    rw [predRowFor, hfilter]
    simp [roundHalfEven_zero]
    by_cases hs : p.stock < 0
    · simp [hs, statusRestock_ne_statusOK, Ne.symm statusRestock_ne_statusOK]
    · simp [hs, statusRestock_ne_statusOK, Ne.symm statusRestock_ne_statusOK]
      omega

/-- C5/amended witness: the 5-stock product with no transactions reads
(0, 0, "Aman"). -/
theorem no_sales_prediction_amended_witness :
    wprod ∈ wdb.products
      ∧ ∃ r ∈ get_sales_prediction wdb 0, r.product_id = wprod.id
        ∧ r.current_stock = wprod.stock ∧ r.total_sold_3days = 0
        ∧ r.avg_daily_sales = 0 ∧ r.predicted_demand = 0
        ∧ (r.stock_status = statusOK ↔ 0 ≤ wprod.stock)
        ∧ (r.stock_status = statusRestock ↔ wprod.stock < 0) :=
  ⟨by decide,
    no_sales_prediction_amended wdb 0 wprod (by decide)
      (by intro t ht; cases ht)⟩

/-! ## Seeding infrastructure for C7 and C8 -/

/-- Lemma: `randint lo hi` stays inside `[lo, hi]` whenever `lo ≤ hi`. -/
theorem randint_bounds (lo hi : Nat) (r : PyRand) (h : lo ≤ hi) :
    lo ≤ (randint lo hi r).1 ∧ (randint lo hi r).1 ≤ hi := by
  rw [randint, PyRand.next]
  have hm : r.stream r.idx % (hi - lo + 1) < hi - lo + 1 :=
    Nat.mod_lt _ (by omega)
  constructor
  · exact Nat.le_add_right lo _
  · show lo + r.stream r.idx % (hi - lo + 1) ≤ hi
    omega

/-- Lemma: `update_stock` preserves the id and name of every product row. -/
theorem update_stock_idName (db : DB) (pid : Nat) (q : ℤ) :
    (update_stock db pid q).1.products.map (fun p => (p.id, p.name))
      = db.products.map (fun p => (p.id, p.name)) := by
  rw [update_stock]
  cases h : db.products.find? (fun p => p.id == pid) with
  | none => rfl
  | some res =>
    by_cases hlt : res.stock < q
    · simp [hlt]
    · simp [hlt, setStock_map_id_name]


/-- Lemma: `update_stock` never touches the transactions table. -/
theorem update_stock_transactions (db : DB) (pid : Nat) (q : ℤ) :
    (update_stock db pid q).1.transactions = db.transactions := by
  rw [update_stock]
  cases h : db.products.find? (fun p => p.id == pid) with
  | none => rfl
  | some res =>
    by_cases hlt : res.stock < q <;> simp [hlt]

/-- One seeding attempt never changes the ids or names of the catalog. -/
theorem seedAttempt_idName (now : ℤ) (d : Nat) (pids : List Nat)
    (st : DB × PyRand × Nat) :
    (seedAttempt now d pids st).1.products.map (fun p => (p.id, p.name))
      = st.1.products.map (fun p => (p.id, p.name)) := by
  simp only [seedAttempt]
  cases hp : get_product_by_id st.1 (randChoice pids st.2.1).1 with
  | none => rfl
  | some product =>
    by_cases hs : 0 < product.stock
    · simp only [hs, if_true]
      rw [update_stock_idName]
      rfl
    · simp only [hs, if_false]

/-- One seeding attempt: the count tracks the number of stored transactions,
grows by at most one, and any new transaction is dated inside the trailing
8-day window strictly before `now`. -/
theorem seedAttempt_txns (now : ℤ) (d : Nat) (pids : List Nat)
    (st : DB × PyRand × Nat) (hd : d ≤ 7) :
    ((seedAttempt now d pids st).1.transactions.length + st.2.2
        = st.1.transactions.length + (seedAttempt now d pids st).2.2)
    ∧ (seedAttempt now d pids st).2.2 ≤ st.2.2 + 1
    ∧ ∀ t ∈ (seedAttempt now d pids st).1.transactions,
        (now - 8 * minutesPerDay ≤ t.transaction_date
            ∧ t.transaction_date < now)
          ∨ t ∈ st.1.transactions := by
  simp only [seedAttempt]
  cases hp : get_product_by_id st.1 (randChoice pids st.2.1).1 with
  | none =>
    refine ⟨rfl, ?_, ?_⟩
    · show st.2.2 ≤ st.2.2 + 1
      omega
    · intro t ht
      exact Or.inr ht
  | some product =>
    by_cases hs : 0 < product.stock
    · simp only [hs, if_true]
      refine ⟨?_, ?_, ?_⟩
      · rw [update_stock_transactions]
        simp only [add_transaction_with_date, List.length_append,
          List.length_singleton]
        omega
      · show st.2.2 + 1 ≤ st.2.2 + 1
        omega
      · intro t ht
        rw [update_stock_transactions] at ht
        simp only [add_transaction_with_date] at ht
        rw [List.mem_append] at ht
        rcases ht with h | h
        · exact Or.inr h
        · rw [List.mem_singleton] at h
          subst h
          left
          have h8 := randint_bounds 8 20
            (randint 1 (min 3 product.stock).toNat
              (randChoice pids st.2.1).2).2 (by omega)
          have h59 := randint_bounds 0 59
            (randint 8 20 (randint 1 (min 3 product.stock).toNat
              (randChoice pids st.2.1).2).2).2 (by omega)
          rw [minutesPerDay]
          constructor
          · show now - 8 * 1440 ≤ now - _
            push_cast
            omega
          · show now - _ < now
            omega
    · simp only [hs, if_false]
      refine ⟨trivial, ?_, ?_⟩
      · show st.2.2 ≤ st.2.2 + 1
        omega
      · intro t ht
        exact Or.inr ht

/-- Any property of the store and the running count that one attempt
preserves (below the 50 cut-off) is preserved by the inner per-day loop. -/
theorem seedDayLoop_pres (now : ℤ) (d : Nat) (pids : List Nat)
    (P : DB → Nat → Prop)
    (hP : ∀ st : DB × PyRand × Nat, st.2.2 < 50 → P st.1 st.2.2 →
      P (seedAttempt now d pids st).1 (seedAttempt now d pids st).2.2) :
    ∀ (iters : Nat) (st : DB × PyRand × Nat), P st.1 st.2.2 →
      P (seedDayLoop now d pids iters st).1
        (seedDayLoop now d pids iters st).2.2 := by
  intro iters
  induction iters with
  | zero =>
    intro st h
    exact h
  | succ n ih =>
    intro st h
    rw [seedDayLoop]
    by_cases hc : 50 ≤ st.2.2
    · simpa only [hc, if_true] using h
    · simp only [hc, if_false]
      exact ih _ (hP st (by omega) h)

/-- The same preservation through the outer day loop, for day offsets
bounded by 7. -/
theorem seedDays_pres (now : ℤ) (pids : List Nat) (P : DB → Nat → Prop)
    (hP : ∀ d : Nat, d ≤ 7 → ∀ st : DB × PyRand × Nat, st.2.2 < 50 →
      P st.1 st.2.2 →
      P (seedAttempt now d pids st).1 (seedAttempt now d pids st).2.2) :
    ∀ (ds : List Nat), (∀ d ∈ ds, d ≤ 7) →
      ∀ st : DB × PyRand × Nat, P st.1 st.2.2 →
      P (seedDays now pids ds st).1 (seedDays now pids ds st).2.2 := by
  intro ds
  induction ds with
  | nil =>
    intro _ st h
    exact h
  | cons d ds ih =>
    intro hds st h
    rw [seedDays]
    by_cases hc : 50 ≤ st.2.2
    · simpa only [hc, if_true] using h
    · simp only [hc, if_false]
      refine ih (fun d' hd' => hds d' (List.mem_cons_of_mem _ hd')) _ ?_
      exact seedDayLoop_pres now d pids P
        (hP d (hds d (List.mem_cons_self _ _))) _ _ h

/-- One seeding attempt preserves the size of the products table. -/
theorem seedAttempt_products_length (now : ℤ) (d : Nat) (pids : List Nat)
    (st : DB × PyRand × Nat) :
    (seedAttempt now d pids st).1.products.length = st.1.products.length := by
  have h := congrArg List.length (seedAttempt_idName now d pids st)
  simpa using h

/-- Lemma: `generate_dummy_data` grows the products table by exactly the ten
catalog rows. -/
theorem generate_products_length (db : DB) (r : PyRand) (now : ℤ) :
    (generate_dummy_data db r now).1.products.length
      = db.products.length + 10 := by
  have hstart : (products_data.foldl (fun (acc : DB × List Nat) pd =>
      let added := add_product acc.1 pd.1 pd.2.1 pd.2.2.1 pd.2.2.2.1
        pd.2.2.2.2 now
      (added.1, acc.2 ++ [added.2])) (db, [])).1.products.length
      = db.products.length + 10 := by
    simp [products_data, add_product]
  exact seedDays_pres now _
    (fun dbx _ => dbx.products.length = db.products.length + 10)
    (fun d _ st _ h => by simpa only [seedAttempt_products_length] using h)
    [7, 6, 5, 4, 3, 2, 1, 0] (by decide) _ hstart

/-! ## C7: initialize_database -/

/-- The all-zeros random stream (one concrete choice of randomness). -/
def rZero : PyRand := ⟨fun _ => 0, 0⟩

/-- C7 counterexample: on a fresh store `initialize_database` returns
`True`; after deleting all ten seeded products the table is empty again, so
a further call returns `True` a second time — "returns true exactly once
and false on every subsequent call" fails. -/
theorem initialize_twice_true_cex :
    (initialize_database DB.empty rZero 0).2.2 = true
    ∧ (initialize_database
        ([1, 2, 3, 4, 5, 6, 7, 8, 9, 10].foldl
          (fun d i => (delete_product d i).1)
          (initialize_database DB.empty rZero 0).1)
        rZero 0).2.2 = true :=
  ⟨rfl, rfl⟩

/-- C7 amended: `initialize_database` returns `True` exactly when the
products table is empty at call time (seeding the demo catalog in that
case); on a non-empty table it returns `False` and changes nothing. Right
after a `True` run the catalog holds 10 products, so a second call with no
intervening deletion returns `False` and leaves the store unchanged. -/
theorem initialize_database_amended (db : DB) (r r' : PyRand)
    (now now' : ℤ) :
    ((initialize_database db r now).2.2 = true ↔ db.products = [])
    ∧ (db.products ≠ [] → initialize_database db r now = (db, r, false))
    ∧ (db.products = [] →
        (initialize_database db r now).1.products.length = 10
        ∧ (initialize_database (initialize_database db r now).1 r' now').2.2
            = false
        ∧ (initialize_database (initialize_database db r now).1 r' now').1
            = (initialize_database db r now).1) := by
  by_cases he : db.products = []
  · have hempty : is_database_empty db = true := by
      simp [is_database_empty, he]
    have htrue : (initialize_database db r now).2.2 = true := by
      rw [initialize_database]
      simp [hempty]
    have hlen10 : (initialize_database db r now).1.products.length = 10 := by
      rw [initialize_database]
      simp only [hempty, if_true]
      show (generate_dummy_data db r now).1.products.length = 10
      rw [generate_products_length, he]
      rfl
    have hne2 : is_database_empty (initialize_database db r now).1 = false := by
      simp [is_database_empty, hlen10]
    refine ⟨⟨fun _ => he, fun _ => htrue⟩, fun hne => absurd he hne,
      fun _ => ⟨hlen10, ?_, ?_⟩⟩
    · rw [initialize_database]
      simp [hne2]
    · rw [initialize_database]
      simp [hne2]
  · have hnonempty : is_database_empty db = false := by
      simp [is_database_empty]
      exact he
    have heq : initialize_database db r now = (db, r, false) := by
      rw [initialize_database]
      simp [hnonempty]
    refine ⟨?_, fun _ => heq, fun habs => absurd habs he⟩
    rw [heq]
    simp [he]

/-- C7 witness: on the concrete non-empty store the initializer reports
`False` and leaves everything alone. -/
theorem initialize_database_amended_witness :
    wdb.products ≠ [] ∧ initialize_database wdb rZero 0 = (wdb, rZero, false) :=
  ⟨by decide, (initialize_database_amended wdb rZero rZero 0 0).2.1
    (by decide)⟩

/-! ## C8: the seeded store -/

/-- The ids and names of the fixed demo catalog, in insertion order. -/
def demoIdNames : List (Nat × String) :=
  [(1, "Laptop Asus ROG"), (2, "iPhone 15 Pro"), (3, "Mouse Logitech G502"),
   (4, "Keyboard Mechanical RGB"), (5, "Monitor Samsung 27 inch"),
   (6, "Headphone Sony WH-1000XM5"), (7, "SSD Samsung 1TB"),
   (8, "RAM DDR5 32GB"), (9, "Webcam Logitech C920"),
   (10, "Printer Epson L3250")]

/-- The main seeding invariant: starting from a store whose catalog already
reads as the demo id/name list and that has no transactions, the day loops
keep the catalog fixed, record at most 50 transactions, and date every
transaction inside the trailing 8-day window, strictly before `now`. -/
theorem seedDays_main (now : ℤ) (pids : List Nat) (r : PyRand) (db0 : DB)
    (hmap : db0.products.map (fun p => (p.id, p.name)) = demoIdNames)
    (htx : db0.transactions = []) :
    ((seedDays now pids [7, 6, 5, 4, 3, 2, 1, 0] (db0, r, 0)).1.products.map
        (fun p => (p.id, p.name)) = demoIdNames)
    ∧ (seedDays now pids [7, 6, 5, 4, 3, 2, 1, 0]
        (db0, r, 0)).1.transactions.length ≤ 50
    ∧ ∀ t ∈ (seedDays now pids [7, 6, 5, 4, 3, 2, 1, 0]
        (db0, r, 0)).1.transactions,
        now - 8 * minutesPerDay ≤ t.transaction_date
          ∧ t.transaction_date < now := by
  have key := seedDays_pres now pids
    (fun dbx c => dbx.products.map (fun p => (p.id, p.name)) = demoIdNames
      ∧ dbx.transactions.length = c ∧ c ≤ 50
      ∧ ∀ t ∈ dbx.transactions,
          now - 8 * minutesPerDay ≤ t.transaction_date
            ∧ t.transaction_date < now)
    (by
      intro d hd st hc h
      obtain ⟨hm, hlen, hle, hdates⟩ := h
      have ht := seedAttempt_txns now d pids st hd
      refine ⟨?_, ?_, ?_, ?_⟩
      · simpa only [seedAttempt_idName] using hm
      · omega
      · omega
      · intro t htmem
        rcases ht.2.2 t htmem with hnew | hold
        · exact hnew
        · exact hdates t hold)
    [7, 6, 5, 4, 3, 2, 1, 0] (by decide) (db0, r, 0)
    ⟨hmap, by simp [htx], Nat.zero_le 50, by simp [htx]⟩
  obtain ⟨h1, h2, h3, h4⟩ := key
  exact ⟨h1, by omega, h4⟩

/-- C8: for every random source, initializing an empty store returns `True`
and yields exactly the ten named catalog products (ids 1–10, in
`get_products` order), at most 50 recorded transactions, and every seeded
transaction dated within the trailing 8 calendar days, strictly before
`now`. -/
theorem initialize_seed_spec (r : PyRand) (now : ℤ) :
    (initialize_database DB.empty r now).2.2 = true
    ∧ (get_products (initialize_database DB.empty r now).1).map
        (fun p => (p.id, p.name)) = demoIdNames
    ∧ (initialize_database DB.empty r now).1.transactions.length ≤ 50
    ∧ ∀ t ∈ (initialize_database DB.empty r now).1.transactions,
        now - 8 * minutesPerDay ≤ t.transaction_date
          ∧ t.transaction_date < now := by
  have main := seedDays_main now
    (products_data.foldl (fun (acc : DB × List Nat) pd =>
      let added := add_product acc.1 pd.1 pd.2.1 pd.2.2.1 pd.2.2.2.1
        pd.2.2.2.2 now
      (added.1, acc.2 ++ [added.2])) (DB.empty, [])).2
    r
    (products_data.foldl (fun (acc : DB × List Nat) pd =>
      let added := add_product acc.1 pd.1 pd.2.1 pd.2.2.1 pd.2.2.2.1
        pd.2.2.2.2 now
      (added.1, acc.2 ++ [added.2])) (DB.empty, [])).1
    (by rfl) (by rfl)
  obtain ⟨hmap0, hlen, hdates⟩ := main
  have hmap : (initialize_database DB.empty r now).1.products.map
      (fun p => (p.id, p.name)) = demoIdNames := hmap0
  refine ⟨rfl, ?_, hlen, hdates⟩
  have hpw : List.Pairwise (fun a b : Nat × String => a.1 ≤ b.1)
      demoIdNames := by decide
  rw [← hmap] at hpw
  rw [List.pairwise_map] at hpw
  have hsorted : List.Sorted (fun a b : Product => a.id ≤ b.id)
      (initialize_database DB.empty r now).1.products := hpw
  rw [get_products, hsorted.insertionSort_eq]
  exact hmap
